import Mathlib

/-!
Shallow embedding of the MCP test-harness core
(`src/mcp_test_harness/mcp_client.py`, `logger.py`, `models.py`, `app.py`)
and proofs about its specified properties.

External effects (the MCP SDK session, the event loop, the wall clock) are
modelled as explicit inputs: the outcome of a subprocess session is a value
of an outcome type, and the logger's two sinks are explicit state threaded
through the functions.  Python's duck-typed attribute access
(`getattr(x, 'attr', default)`) is modelled with `Option`, and Python
truthiness with an explicit `truthy` function.
-/

namespace McpHarness

/-- JSON-compatible Python value, as handled by the harness: `None`, bools,
ints, strings, lists and string-keyed dicts. -/
inductive PyValue where
  | none
  | bool (b : Bool)
  | int (n : Int)
  | str (s : String)
  | list (items : List PyValue)
  | dict (entries : List (String × PyValue))

/-- Python truthiness (`bool(x)`) for the modelled values: `None` and empty
containers/strings are falsy, as used by `if not all([...])` in
`list_server_tools`. -/
def PyValue.truthy : PyValue → Bool
  | .none => false
  | .bool b => b
  | .int n => n != 0
  | .str s => !s.isEmpty
  | .list items => !items.isEmpty
  | .dict entries => !entries.isEmpty

mutual

/-- Serialization of a `PyValue` to a JSON string, modelling the
`json.dumps(input_schema, indent=2)` call in `list_server_tools`
(indentation elided: no claim depends on the exact layout). -/
def jsonDumps : PyValue → String
  | .none => "null"
  | .bool b => if b then "true" else "false"
  | .int n => toString n
  | .str s => "\x22" ++ s ++ "\x22"
  | .list items => "[" ++ jsonDumpsList items ++ "]"
  | .dict entries => "\x7b" ++ jsonDumpsEntries entries ++ "\x7d"

/-- Comma-separated serialization of a list of values. -/
def jsonDumpsList : List PyValue → String
  | [] => ""
  | [v] => jsonDumps v
  | v :: rest => jsonDumps v ++ ", " ++ jsonDumpsList rest

/-- Comma-separated serialization of dict entries. -/
def jsonDumpsEntries : List (String × PyValue) → String
  | [] => ""
  | [(k, v)] => "\x22" ++ k ++ "\x22: " ++ jsonDumps v
  | (k, v) :: rest => "\x22" ++ k ++ "\x22: " ++ jsonDumps v ++ ", " ++ jsonDumpsEntries rest

end

/-- The `Tool` pydantic model of `models.py`: name, description and the
serialized JSON schema string. -/
structure Tool where
  name : String
  description : String
  schema : String
deriving DecidableEq

/-- One raw entry of the SDK's tool list, duck-typed: each of the three
attributes read with `getattr(tool, ·, None)` may be absent (`none`). -/
structure RawTool where
  name : Option String
  description : Option String
  inputSchema : Option PyValue

/-- Truthiness of an optional string attribute, as tested by
`all([name, description, input_schema])`: absent (`None`) and the empty
string are both falsy. -/
def attrTruthy : Option String → Bool
  | Option.none => false
  | some s => !s.isEmpty

/-- Truthiness of the optional `inputSchema` attribute. -/
def schemaTruthy : Option PyValue → Bool
  | Option.none => false
  | some v => v.truthy

/-- Whether a raw entry exposes all three attributes (they are present,
regardless of truthiness). -/
def hasAllAttrs (t : RawTool) : Bool :=
  t.name.isSome && t.description.isSome && t.inputSchema.isSome

/-- Conversion of one raw entry inside the loop of `list_server_tools`:
the entry is kept only when `all([name, description, input_schema])` holds
(every attribute present and truthy), in which case a `Tool` is built with
the schema serialized by `json.dumps`. -/
def convertTool (t : RawTool) : Option Tool :=
  match t.name, t.description, t.inputSchema with
  | some n, some d, some s =>
      if !n.isEmpty && !d.isEmpty && s.truthy then
        some ⟨n, d, jsonDumps s⟩
      else
        Option.none
  | _, _, _ => Option.none

/-- Outcome of the discovery session (`stdio_client` + `ClientSession` +
`list_tools`), as observed by `list_server_tools`:
either some exception escaped (subprocess spawn failure, handshake failure,
a failing `list_tools` call), or a response object was obtained whose
`tools` attribute may be absent (`getattr(tools_response, 'tools', [])`). -/
inductive DiscoverOutcome where
  | exc (e : String)
  | ok (toolsAttr : Option (List RawTool))

/-- Embedding of `list_server_tools` (mcp_client.py lines 9-85).  Returns the
converted tools together with the list of `logger.error` diagnostics emitted.
Every source path is covered by the outer `try/except` returning `[]`, so the
embedding is a total function: discovery never raises to its caller. -/
def list_server_tools (server_name : String) (outcome : DiscoverOutcome) :
    List Tool × List String :=
  match outcome with
  | .exc e =>
      ([], ["Error listing tools from " ++ server_name ++ ": " ++ e])
  | .ok toolsAttr =>
      let tools := toolsAttr.getD []
      if tools.isEmpty then
        ([], ["No tools attribute in response from " ++ server_name])
      else
        (tools.filterMap convertTool,
         tools.filterMap fun t =>
           if (convertTool t).isSome then Option.none
           else some "Missing required attributes in tool")

/-- One structured record built by `log_request_response` (logger.py
lines 17-44); the `timestamp` models `datetime.now().isoformat()` as an
abstract clock value supplied by the caller. -/
structure LogEntry where
  timestamp : Nat
  server : String
  tool : String
  arguments : PyValue
  response : PyValue
  is_error : Bool

/-- The human-readable record one `log_request_response` call appends to the
text sink: the `MCP REQUEST` line and the `MCP RESPONSE`/`MCP ERROR RESPONSE`
line written together for one invocation. -/
structure TextRecord where
  requestLine : String
  responseLine : String

/-- State of the two log sinks: the human-readable text log and the
line-delimited JSON log (`logger.debug(json.dumps(log_entry))`). -/
structure LoggerState where
  textSink : List TextRecord
  jsonSink : List LogEntry

/-- Embedding of `log_request_response` (logger.py lines 17-44): builds the
timestamped entry, appends one human-readable record to the text sink and the
structured entry to the JSON sink, and returns the entry. -/
def log_request_response (st : LoggerState) (now : Nat)
    (server_name tool_name : String) (arguments response : PyValue)
    (is_error : Bool) : LogEntry × LoggerState :=
  let entry : LogEntry :=
    ⟨now, server_name, tool_name, arguments, response, is_error⟩
  let requestLine :=
    "MCP REQUEST: " ++ server_name ++ "/" ++ tool_name ++ " - ARGS: " ++
      jsonDumps arguments
  let responseLine :=
    if is_error then "MCP ERROR RESPONSE: " ++ jsonDumps response
    else "MCP RESPONSE: " ++ jsonDumps response
  (entry, ⟨st.textSink ++ [⟨requestLine, responseLine⟩], st.jsonSink ++ [entry]⟩)

/-- The raw result object returned by `session.call_tool`, duck-typed as in
`call_server_tool`: `content` is `getattr(result, 'content', None)` (absent
or `None` both map to `none`), `isError` is `getattr(result, 'isError',
False)`, and `selfVal` is the value wrapped under `"data"` when `content`
is absent. -/
structure RawResult where
  content : Option PyValue
  isError : Bool
  selfVal : PyValue

/-- Outcome of the invocation session as observed by `call_server_tool`:
either a raw result was obtained, or some exception escaped (subprocess
spawn failure, handshake failure, the `call_tool` await failing). -/
inductive SessionOutcome where
  | ok (r : RawResult)
  | exc (e : String)

/-- The `ToolResponse` pydantic model of `models.py`.  `log_entry` is an
`Option` so that the specified always-present property is contentful rather
than enforced by the type. -/
structure ToolResponse where
  success : Bool
  result : Option PyValue
  error : Option String
  log_entry : Option LogEntry

/-- Normalization of the raw result's payload in `call_server_tool`
(mcp_client.py lines 118-124): `content` is used directly when it is a dict,
otherwise wrapped under `"data"`; when `content` is absent the raw result
itself is wrapped under `"data"`. -/
def responseData (r : RawResult) : PyValue :=
  match r.content with
  | some (.dict entries) => .dict entries
  | some c => .dict [("data", c)]
  | Option.none => .dict [("data", r.selfVal)]

/-- Embedding of `call_server_tool` (mcp_client.py lines 87-165).  On a raw
result: the payload is normalized by `responseData`, `success = not
is_error`, the response is logged and the logger's entry embedded.  On an
exception: the error string becomes the `error` field and an error-flagged
entry is logged.  Both paths return; no exception escapes. -/
def call_server_tool (now : Nat) (server_name tool_name : String)
    (arguments : PyValue) (outcome : SessionOutcome) (st : LoggerState) :
    ToolResponse × LoggerState :=
  match outcome with
  | .ok r =>
      let response_data := responseData r
      let logged := log_request_response st now server_name tool_name
        arguments response_data r.isError
      (⟨!r.isError, some response_data, Option.none, some logged.fst⟩,
       logged.snd)
  | .exc e =>
      let logged := log_request_response st now server_name tool_name
        arguments (.dict [("error", .str e)]) true
      (⟨false, Option.none, some e, some logged.fst⟩, logged.snd)

/-- Outcome of one `await coro` of the wrapped awaitable, as classified by
the two `except` clauses of `call_with_retry_async` (app.py lines 102-127):
`transient` covers `aiohttp.ClientError` and `asyncio.TimeoutError`,
`nonTransient` every other exception. -/
inductive PyOutcome (α : Type) where
  | ok (v : α)
  | transient (e : String)
  | nonTransient (e : String)

/-- Exceptional result of `call_with_retry_async`: a transient exception
re-raised after exhausting retries, a non-transient exception propagated at
once, or the final `raise last_exception` with `last_exception = None`
(reachable only when `max_retries` is 0). -/
inductive RetryErr where
  | transient (e : String)
  | nonTransient (e : String)
  | raisedNone
deriving DecidableEq

/-- Observable trace of one `call_with_retry_async` run: its result, the
backoff sleeps performed (in order), and the number of `await coro`
attempts made. -/
structure RetryTrace (α : Type) where
  result : Except RetryErr α
  sleeps : List ℚ
  attempts : Nat

/-- Loop body of `call_with_retry_async` (app.py lines 107-127).  `retries`
is the source's counter at loop entry; the awaited outcome of the
`retries`-th attempt (0-indexed) is `attempt retries`.  On a transient
failure the counter is incremented and, when more retries remain, the loop
sleeps `retry_delay * 2 ** (retries - 1)` (with the incremented counter)
before the next attempt; otherwise the exception is re-raised.  A
non-transient failure is re-raised immediately. -/
def callWithRetryGo (attempt : Nat → PyOutcome α) (max_retries : Nat)
    (retry_delay : ℚ) (retries : Nat) (sleeps : List ℚ) (attempts : Nat) :
    RetryTrace α :=
  if retries < max_retries then
    match attempt retries with
    | .ok v => ⟨.ok v, sleeps, attempts + 1⟩
    | .transient e =>
        if retries + 1 < max_retries then
          callWithRetryGo attempt max_retries retry_delay (retries + 1)
            (sleeps ++ [retry_delay * 2 ^ retries]) (attempts + 1)
        else
          ⟨.error (.transient e), sleeps, attempts + 1⟩
    | .nonTransient e => ⟨.error (.nonTransient e), sleeps, attempts + 1⟩
  else
    ⟨.error .raisedNone, sleeps, attempts⟩
termination_by max_retries - retries

/-- Embedding of `call_with_retry_async` (app.py lines 102-127), starting
from `retries = 0` with no sleeps and no attempts performed. -/
def call_with_retry_async (attempt : Nat → PyOutcome α) (max_retries : Nat)
    (retry_delay : ℚ) : RetryTrace α :=
  callWithRetryGo attempt max_retries retry_delay 0 [] 0

/-- A single coroutine object as an attempt function: the first `await`
yields the coroutine's outcome; any further `await` raises the RuntimeError
Python raises for re-awaiting a coroutine, which the retry wrapper
classifies as non-transient. -/
def singleShot (v : α) : Nat → PyOutcome α :=
  fun i => if i = 0 then .ok v
           else .nonTransient "cannot reuse already awaited coroutine"

/-- Embedding of `call_server_tool_with_resource_limit` (app.py lines
191-203): the retry wrapper applied, with its default `max_retries = 3` and
`retry_delay = 1.0`, to the single coroutine object
`call_server_tool(...)`.  The embedded `call_server_tool` is a total
function — every exception is caught at its boundary — so the first attempt
always yields `ok`.  (The admission semaphore is elided: it does not affect
the retry trace.) -/
def call_server_tool_with_resource_limit (now : Nat)
    (server_name tool_name : String) (arguments : PyValue)
    (outcome : SessionOutcome) (st : LoggerState) :
    RetryTrace (ToolResponse × LoggerState) :=
  call_with_retry_async
    (singleShot (call_server_tool now server_name tool_name arguments outcome st))
    3 1

/-- Outcome of the task wrapped by `call_tool_with_timeout_async`
(app.py lines 205-222): the underlying `call_tool_async` either completes
with its result string within the timeout, never completes within the
timeout (the `asyncio.TimeoutError` branch, after which the task is
cancelled and the cancellation awaited), or raises some other exception. -/
inductive TaskOutcome where
  | completes (s : String)
  | timesOut
  | raises (e : String)

/-- Embedding of `call_tool_with_timeout_async` (app.py lines 205-222):
every branch returns a string; the timeout branch returns the dedicated
timeout message after awaiting the cancellation, and any other escaping
exception is rendered as an error-marker string.  No path re-raises. -/
def call_tool_with_timeout_async (outcome : TaskOutcome) : String :=
  match outcome with
  | .completes s => s
  | .timesOut => "❌ タイムアウト: 操作が完了しませんでした"
  | .raises e => "❌ エラー: " ++ e

/-- Addressable heap of list objects, used to make Python's reference
semantics (and hence `list.copy()`) explicit for the tool store.  A cell
holds one list of `(display-label, schema)` pairs; a reference is the
cell's index. -/
structure Heap where
  cells : List (List (String × String))

/-- Allocation of a fresh list object holding `v`; returns the new heap and
the fresh reference. -/
def Heap.alloc (h : Heap) (v : List (String × String)) : Heap × Nat :=
  (⟨h.cells ++ [v]⟩, h.cells.length)

/-- Dereference; unallocated references read as the empty list. -/
def Heap.read (h : Heap) (r : Nat) : List (String × String) :=
  h.cells.getD r []

/-- Lookup in the assoc-list model of the store's dict. -/
def lookupRef : List (String × Nat) → String → Option Nat
  | [], _ => Option.none
  | (k, r) :: rest, key => if k = key then some r else lookupRef rest key

/-- Update in the assoc-list model of the store's dict
(`self._tools[server_name] = tools`). -/
def setRef : List (String × Nat) → String → Nat → List (String × Nat)
  | [], key, r => [(key, r)]
  | (k, v) :: rest, key, r =>
      if k = key then (key, r) :: rest else (k, v) :: setRef rest key r

/-- The `ThreadSafeToolStore` of app.py (lines 30-47): a dict from server
name to a reference to the stored list object.  The lock serializes the
operations; each operation below models one lock-protected critical
section. -/
structure ThreadSafeToolStore where
  tools : List (String × Nat)

/-- Embedding of `ThreadSafeToolStore.set_tools`: binds the name to the
caller's list reference (no copy is taken on the write path); the heap is
untouched. -/
def ThreadSafeToolStore.set_tools (st : ThreadSafeToolStore) (name : String)
    (r : Nat) : ThreadSafeToolStore :=
  ⟨setRef st.tools name r⟩

/-- Embedding of `ThreadSafeToolStore.get_tools` with a server name:
`self._tools.get(server_name, []).copy()` — reads the stored list (empty
when unbound) and allocates a fresh list object with the same content,
returning the fresh reference. -/
def ThreadSafeToolStore.get_tools (st : ThreadSafeToolStore) (h : Heap)
    (name : String) : Heap × Nat :=
  let content :=
    match lookupRef st.tools name with
    | some r => h.read r
    | Option.none => []
  h.alloc content

/-- Embedding of `ThreadSafeToolStore.get_tools` with no server name:
`self._tools.copy()` — a fresh dict with the same (name, reference)
bindings. -/
def ThreadSafeToolStore.get_all (st : ThreadSafeToolStore) :
    List (String × Nat) :=
  st.tools

/-! Theorems. -/

/-- C2: for any connection parameters under which the subprocess fails to
spawn, the handshake fails, or the response is malformed (no `tools`
attribute), `list_server_tools` returns an empty sequence and records the
error.  The embedding is a total function — every source path is inside the
outer `try/except` that returns `[]` — so discovery never raises to its
caller. -/
theorem discovery_total_failure_safe (server_name e : String) :
    (list_server_tools server_name (.exc e)).fst = [] ∧
    (list_server_tools server_name (.exc e)).snd ≠ [] ∧
    (list_server_tools server_name (.ok Option.none)).fst = [] ∧
    (list_server_tools server_name (.ok Option.none)).snd ≠ [] := by
  refine ⟨rfl, ?_, rfl, ?_⟩ <;> simp [list_server_tools]

/-- C2 witness: the statement at a concrete failing input. -/
theorem discovery_total_failure_safe_witness :
    (list_server_tools "srv" (.exc "spawn failed")).fst = [] ∧
    (list_server_tools "srv" (.exc "spawn failed")).snd ≠ [] ∧
    (list_server_tools "srv" (.ok Option.none)).fst = [] ∧
    (list_server_tools "srv" (.ok Option.none)).snd ≠ [] :=
  discovery_total_failure_safe "srv" "spawn failed"

/-- C6: a callee raising a non-transient exception on its first attempt
causes `call_with_retry_async` to make exactly one attempt and propagate the
exception immediately, with no backoff sleep. -/
theorem retry_non_transient_short_circuit (attempt : Nat → PyOutcome α)
    (max_retries : Nat) (retry_delay : ℚ) (e : String)
    (hmax : 0 < max_retries) (h0 : attempt 0 = .nonTransient e) :
    call_with_retry_async attempt max_retries retry_delay =
      ⟨.error (.nonTransient e), [], 1⟩ := by
  unfold call_with_retry_async
  rw [callWithRetryGo]
  simp [hmax, h0]

/-- C6 witness: the theorem applied to a concrete non-transient callee. -/
theorem retry_non_transient_short_circuit_witness :
    0 < 3 ∧
    call_with_retry_async
        (fun _ => (PyOutcome.nonTransient "bad args" : PyOutcome Nat)) 3 1 =
      ⟨.error (.nonTransient "bad args"), [], 1⟩ :=
  ⟨by decide,
   retry_non_transient_short_circuit
     (fun _ => (PyOutcome.nonTransient "bad args" : PyOutcome Nat))
     3 1 "bad args" (by decide) rfl⟩

/-- C10: for every invocation routed through
`call_server_tool_with_resource_limit`, the transient-retry branch of
`call_with_retry_async` is unreachable: the embedded `call_server_tool` is
total (it catches every exception at its boundary and returns a
`ToolResponse`), so the first await yields `ok`, exactly one attempt is
made, no backoff sleep happens, and the single-shot coroutine is never
awaited a second time. -/
theorem retry_branch_unreachable (now : Nat) (server_name tool_name : String)
    (arguments : PyValue) (outcome : SessionOutcome) (st : LoggerState) :
    call_server_tool_with_resource_limit now server_name tool_name arguments
        outcome st =
      ⟨.ok (call_server_tool now server_name tool_name arguments outcome st),
       [], 1⟩ := by
  unfold call_server_tool_with_resource_limit call_with_retry_async
  rw [callWithRetryGo]
  simp [singleShot]

/-- C7: `call_tool_with_timeout_async` never raises to the UI: a call that
never completes within the timeout yields the dedicated timeout message
(returned after the cancellation completes), any other escaping exception
yields an error-marker string, and the timeout message is distinct from
every normal-failure message. -/
theorem timeout_wrapper_never_raises (s e : String) :
    call_tool_with_timeout_async (.completes s) = s ∧
    call_tool_with_timeout_async (.raises e) = "❌ エラー: " ++ e ∧
    (call_tool_with_timeout_async .timesOut).data.take 2 = ['❌', ' '] ∧
    (call_tool_with_timeout_async (.raises e)).data.take 2 = ['❌', ' '] ∧
    call_tool_with_timeout_async .timesOut ≠
      call_tool_with_timeout_async (.raises e) := by
  refine ⟨rfl, rfl, by decide, ?_, ?_⟩
  · show (("❌ エラー: " ++ e)).data.take 2 = ['❌', ' ']
    rw [String.data_append]
    rw [List.take_append_of_le_length (by decide)]
    decide
  · intro hcontra
    have hdata := congrArg (fun t => t.data.take 3) hcontra
    simp only [call_tool_with_timeout_async, String.data_append] at hdata
    rw [List.take_append_of_le_length (by decide)] at hdata
    revert hdata
    decide

/-- C7 witness: the theorem applied at concrete strings. -/
theorem timeout_wrapper_never_raises_witness :
    call_tool_with_timeout_async (.completes "done") = "done" ∧
    call_tool_with_timeout_async (.raises "boom") = "❌ エラー: " ++ "boom" ∧
    (call_tool_with_timeout_async .timesOut).data.take 2 = ['❌', ' '] ∧
    (call_tool_with_timeout_async (.raises "boom")).data.take 2 = ['❌', ' '] ∧
    call_tool_with_timeout_async .timesOut ≠
      call_tool_with_timeout_async (.raises "boom") :=
  timeout_wrapper_never_raises "done" "boom"

/-- C1 counterexample: a raw result carrying `isError = True` produces a
`ToolResponse` with `success = False`, yet `error = None` and a populated
`result` — so `success == True` is not equivalent to `error is None and
result is not None`, refuting the claimed biconditional for the `isError`
outcome. -/
theorem tool_response_invariant_cex :
    ¬ (((call_server_tool 0 "srv" "tool" (.dict [])
          (.ok ⟨some (.dict [("k", .str "v")]), true, .none⟩)
          ⟨[], []⟩).fst.success = true) ↔
        ((call_server_tool 0 "srv" "tool" (.dict [])
          (.ok ⟨some (.dict [("k", .str "v")]), true, .none⟩)
          ⟨[], []⟩).fst.error = Option.none ∧
         (call_server_tool 0 "srv" "tool" (.dict [])
          (.ok ⟨some (.dict [("k", .str "v")]), true, .none⟩)
          ⟨[], []⟩).fst.result.isSome = true)) := by
  decide

/-- C1 (amended): for every `ToolResponse` produced by `call_server_tool`,
`log_entry` is always non-null and `success = True` implies `error is None`
and `result` populated; on the exception path `success = False` with exactly
`error` populated; but on a raw result the response carries `success = not
isError` with `result` populated and `error = None` even when `isError` is
set — so the claimed biconditional and the exactly-one-populated invariant
hold for the normal-success and exception outcomes only, not for the
`isError` outcome. -/
theorem tool_response_invariant_amended (now : Nat)
    (server_name tool_name : String) (arguments : PyValue)
    (outcome : SessionOutcome) (st : LoggerState) (resp : ToolResponse)
    (hresp : resp =
      (call_server_tool now server_name tool_name arguments outcome st).fst) :
    resp.log_entry.isSome = true ∧
    (resp.success = true → resp.error = Option.none ∧
      resp.result.isSome = true) ∧
    (∀ e, outcome = .exc e → resp.success = false ∧ resp.error = some e ∧
      resp.result = Option.none) ∧
    ∀ r, outcome = .ok r → resp.success = !r.isError ∧
      resp.result.isSome = true ∧ resp.error = Option.none := by
  subst hresp
  cases outcome with
  | ok r =>
      refine ⟨rfl, ?_, ?_, ?_⟩
      · exact fun _ => ⟨rfl, rfl⟩
      · intro e he
        cases he
      · rintro r' ⟨rfl⟩
        exact ⟨rfl, rfl, rfl⟩
  | exc e =>
      refine ⟨rfl, ?_, ?_, ?_⟩
      · intro h
        cases h
      · rintro e' ⟨rfl⟩
        exact ⟨rfl, rfl, rfl⟩
      · intro r hr
        cases hr

/-- C1 (amended) witness: the theorem applied at a concrete exception
outcome. -/
theorem tool_response_invariant_amended_witness :
    ((call_server_tool 0 "srv" "tool" (.dict []) (.exc "boom")
        ⟨[], []⟩).fst.log_entry.isSome = true) ∧
    (((call_server_tool 0 "srv" "tool" (.dict []) (.exc "boom")
        ⟨[], []⟩).fst.success = true) →
      ((call_server_tool 0 "srv" "tool" (.dict []) (.exc "boom")
          ⟨[], []⟩).fst.error = Option.none ∧
       (call_server_tool 0 "srv" "tool" (.dict []) (.exc "boom")
          ⟨[], []⟩).fst.result.isSome = true)) ∧
    (∀ e, SessionOutcome.exc "boom" = .exc e →
      ((call_server_tool 0 "srv" "tool" (.dict []) (.exc "boom")
          ⟨[], []⟩).fst.success = false ∧
       (call_server_tool 0 "srv" "tool" (.dict []) (.exc "boom")
          ⟨[], []⟩).fst.error = some e ∧
       (call_server_tool 0 "srv" "tool" (.dict []) (.exc "boom")
          ⟨[], []⟩).fst.result = Option.none)) ∧
    ∀ r, SessionOutcome.exc "boom" = .ok r →
      ((call_server_tool 0 "srv" "tool" (.dict []) (.exc "boom")
          ⟨[], []⟩).fst.success = !r.isError ∧
       (call_server_tool 0 "srv" "tool" (.dict []) (.exc "boom")
          ⟨[], []⟩).fst.result.isSome = true ∧
       (call_server_tool 0 "srv" "tool" (.dict []) (.exc "boom")
          ⟨[], []⟩).fst.error = Option.none) :=
  tool_response_invariant_amended 0 "srv" "tool" (.dict []) (.exc "boom")
    ⟨[], []⟩ _ rfl

/-- C8: every `call_server_tool` invocation, success or failure, appends
exactly one new record to the text sink and exactly one to the JSON sink
before the response is returned; the appended entry's `is_error` flag is the
negation of the returned `success`, and the returned `log_entry` is exactly
the logger's returned record (the one appended to the JSON sink), not a
re-derived copy. -/
theorem logging_completeness (now : Nat) (server_name tool_name : String)
    (arguments : PyValue) (outcome : SessionOutcome) (st : LoggerState) :
    ((call_server_tool now server_name tool_name arguments outcome
        st).snd.textSink.length = st.textSink.length + 1) ∧
    ∃ le,
      (call_server_tool now server_name tool_name arguments outcome
          st).fst.log_entry = some le ∧
      (call_server_tool now server_name tool_name arguments outcome
          st).snd.jsonSink = st.jsonSink ++ [le] ∧
      le.is_error = !(call_server_tool now server_name tool_name arguments
          outcome st).fst.success := by
  cases outcome with
  | ok r =>
      refine ⟨by simp [call_server_tool, log_request_response], ?_⟩
      exact ⟨_, rfl, rfl, by simp [call_server_tool, log_request_response]⟩
  | exc e =>
      refine ⟨by simp [call_server_tool, log_request_response], ?_⟩
      exact ⟨_, rfl, rfl, by simp [call_server_tool, log_request_response]⟩

/-- Invariant of the retry loop: starting from `retries` with the sleeps
accumulator holding the geometric backoff sequence for the first `retries`
delays, the final sleeps list is such a sequence as well. -/
theorem callWithRetryGo_sleeps_shape (attempt : Nat → PyOutcome α)
    (max_retries : Nat) (d : ℚ) :
    ∀ fuel retries attempts, max_retries - retries ≤ fuel →
      ∃ k, (callWithRetryGo attempt max_retries d retries
          ((List.range retries).map fun i => d * 2 ^ i) attempts).sleeps
        = (List.range k).map fun i => d * 2 ^ i := by
  intro fuel
  induction fuel with
  | zero =>
      intro retries attempts h
      have hge : ¬ retries < max_retries := by omega
      rw [callWithRetryGo, if_neg hge]
      exact ⟨retries, rfl⟩
  | succ f ih =>
      intro retries attempts h
      by_cases hr : retries < max_retries
      · rw [callWithRetryGo, if_pos hr]
        cases hAtt : attempt retries with
        | ok v =>
            exact ⟨retries, rfl⟩
        | transient e =>
            dsimp only
            by_cases hr2 : retries + 1 < max_retries
            · rw [if_pos hr2]
              have heq : ((List.range retries).map fun i => d * 2 ^ i)
                    ++ [d * 2 ^ retries]
                  = (List.range (retries + 1)).map fun i => d * 2 ^ i := by
                rw [List.range_succ, List.map_append]
                rfl
              rw [heq]
              exact ih (retries + 1) (attempts + 1) (by omega)
            · rw [if_neg hr2]
              exact ⟨retries, rfl⟩
        | nonTransient e =>
            exact ⟨retries, rfl⟩
      · rw [callWithRetryGo, if_neg hr]
        exact ⟨retries, rfl⟩

/-- Shape of the sleeps performed by a full `call_with_retry_async` run:
always a prefix of the geometric backoff sequence
`d * 2 ^ 0, d * 2 ^ 1, ...`. -/
theorem call_with_retry_sleeps_shape (attempt : Nat → PyOutcome α)
    (max_retries : Nat) (d : ℚ) :
    ∃ k, (call_with_retry_async attempt max_retries d).sleeps
      = (List.range k).map fun i => d * 2 ^ i := by
  have h := callWithRetryGo_sleeps_shape attempt max_retries d max_retries 0 0
    (by omega)
  simpa [call_with_retry_async] using h

/-- C3: `call_with_retry_async` with `max_retries = 3` retries only on
transient failures with exponential backoff.  Given a callee that fails
transiently on the first two attempts and succeeds on the third, it returns
the success value after sleeping twice (`d * 2 ^ 0` then `d * 2 ^ 1`, the
second exactly twice the first); in every run the delay before attempt
`k ≥ 2` (the sleep at 0-based index `k - 2`) equals `base_delay *
2 ^ (k - 2)`; and a callee that fails transiently on all three attempts
makes the wrapper re-raise the last transient exception. -/
theorem retry_backoff_spec (attempt : Nat → PyOutcome α) (d : ℚ)
    (e1 e2 : String) (v : α)
    (h0 : attempt 0 = .transient e1) (h1 : attempt 1 = .transient e2)
    (h2 : attempt 2 = .ok v) :
    call_with_retry_async attempt 3 d = ⟨.ok v, [d * 2 ^ 0, d * 2 ^ 1], 3⟩ ∧
    d * 2 ^ 1 = 2 * (d * 2 ^ 0) ∧
    (∀ (a : Nat → PyOutcome α) (m : Nat) (d' : ℚ) (i : Nat),
      i < (call_with_retry_async a m d').sleeps.length →
      (call_with_retry_async a m d').sleeps.get? i = some (d' * 2 ^ i)) ∧
    ∀ (a : Nat → PyOutcome α) (d' : ℚ) (f1 f2 f3 : String),
      a 0 = .transient f1 → a 1 = .transient f2 → a 2 = .transient f3 →
      (call_with_retry_async a 3 d').result = .error (.transient f3) ∧
      (call_with_retry_async a 3 d').attempts = 3 ∧
      (call_with_retry_async a 3 d').sleeps.length = 2 := by
  refine ⟨?_, by ring, ?_, ?_⟩
  · unfold call_with_retry_async
    rw [callWithRetryGo, if_pos (show 0 < 3 by omega), h0]
    dsimp only
    rw [if_pos (show 0 + 1 < 3 by omega),
      callWithRetryGo, if_pos (show 0 + 1 < 3 by omega), h1]
    dsimp only
    rw [if_pos (show 0 + 1 + 1 < 3 by omega),
      callWithRetryGo, if_pos (show 0 + 1 + 1 < 3 by omega), h2]
    simp
  · intro a m d' i hi
    obtain ⟨k, hk⟩ := call_with_retry_sleeps_shape a m d'
    rw [hk] at hi ⊢
    have hik : i < k := by simpa using hi
    simp [List.get?_eq_getElem?, List.getElem?_map, List.getElem?_range, hik]
  · intro a d' f1 f2 f3 g0 g1 g2
    unfold call_with_retry_async
    rw [callWithRetryGo, if_pos (show 0 < 3 by omega), g0]
    dsimp only
    rw [if_pos (show 0 + 1 < 3 by omega),
      callWithRetryGo, if_pos (show 0 + 1 < 3 by omega), g1]
    dsimp only
    rw [if_pos (show 0 + 1 + 1 < 3 by omega),
      callWithRetryGo, if_pos (show 0 + 1 + 1 < 3 by omega), g2]
    dsimp only
    rw [if_neg (show ¬ 0 + 1 + 1 + 1 < 3 by omega)]
    simp

/-- C3 witness: the theorem applied to a concrete callee failing transiently
twice before succeeding, with `base_delay = 1`. -/
theorem retry_backoff_spec_witness :
    call_with_retry_async
        (fun i => match i with
          | 0 => PyOutcome.transient "conn reset"
          | 1 => PyOutcome.transient "timeout"
          | _ => (PyOutcome.ok 42 : PyOutcome Nat)) 3 1 =
      ⟨.ok 42, [1 * 2 ^ 0, 1 * 2 ^ 1], 3⟩ :=
  (retry_backoff_spec
    (fun i => match i with
      | 0 => PyOutcome.transient "conn reset"
      | 1 => PyOutcome.transient "timeout"
      | _ => (PyOutcome.ok 42 : PyOutcome Nat))
    1 "conn reset" "timeout" 42 rfl rfl rfl).1

/-- An entry missing any of the three attributes is never converted. -/
theorem convertTool_eq_none_of_not_hasAllAttrs (t : RawTool)
    (h : hasAllAttrs t = false) : convertTool t = Option.none := by
  rcases t with ⟨n, d, s⟩
  cases n <;> cases d <;> cases s <;> simp_all [hasAllAttrs, convertTool]

/-- An entry whose three attributes are all truthy is converted. -/
theorem convertTool_isSome_of_truthy (t : RawTool)
    (h : (attrTruthy t.name && attrTruthy t.description
      && schemaTruthy t.inputSchema) = true) :
    (convertTool t).isSome = true := by
  rcases t with ⟨n, d, s⟩
  cases n <;> cases d <;> cases s <;>
    simp_all [attrTruthy, schemaTruthy, convertTool]

/-- Counting invariant of the conversion loop: when convertibility agrees
with attribute presence on every entry of `l`, the converted list is exactly
the conversion of the well-formed entries, its length plus the number of
malformed entries is the total, and one diagnostic is produced per
malformed entry. -/
theorem filterMap_convert_count (l : List RawTool)
    (h : ∀ t ∈ l, (convertTool t).isSome = hasAllAttrs t) :
    l.filterMap convertTool
        = (l.filter fun t => hasAllAttrs t).filterMap convertTool ∧
    (l.filterMap convertTool).length
        + (l.filter fun t => !hasAllAttrs t).length = l.length ∧
    (l.filterMap fun t =>
        if (convertTool t).isSome then (Option.none : Option String)
        else some "Missing required attributes in tool").length
      = (l.filter fun t => !hasAllAttrs t).length := by
  induction l with
  | nil => simp
  | cons t rest ih =>
      have ht := h t (List.mem_cons_self t rest)
      obtain ⟨ih1, ih2, ih3⟩ := ih fun x hx => h x (List.mem_cons_of_mem t hx)
      by_cases hall : hasAllAttrs t = true
      · rw [hall] at ht
        obtain ⟨v, hv⟩ := Option.isSome_iff_exists.mp ht
        refine ⟨?_, ?_, ?_⟩
        · simp [List.filterMap_cons, List.filter_cons, hv, hall, ih1]
        · simp only [List.filterMap_cons, List.filter_cons, hv, hall]
          simp only [Bool.not_true, Bool.false_eq_true, if_false,
            List.length_cons]
          omega
        · simp [List.filterMap_cons, List.filter_cons, hv, hall, ih3]
      · have hfalse : hasAllAttrs t = false := by
          revert hall
          cases hasAllAttrs t <;> simp
        have hnone : convertTool t = Option.none := by
          rw [hfalse] at ht
          cases hc : convertTool t
          · rfl
          · rw [hc] at ht
            cases ht
        refine ⟨?_, ?_, ?_⟩
        · simp [List.filterMap_cons, List.filter_cons, hnone, hfalse, ih1]
        · simp only [List.filterMap_cons, List.filter_cons, hnone, hfalse]
          simp only [Bool.not_false, if_true, List.length_cons]
          omega
        · simp [List.filterMap_cons, List.filter_cons, hnone, hfalse, ih3]

/-- C4: given a raw tool list in which some entries are missing the name,
the description, or the input schema (and the attributes that are present
are truthy), `list_server_tools` returns exactly the conversions of the
well-formed entries, with count = total − malformed, and logs one diagnostic
per malformed entry instead of aborting. -/
theorem discovery_skips_malformed (server_name : String) (ts : List RawTool)
    (hpresent : ∀ t ∈ ts, hasAllAttrs t = true →
      (attrTruthy t.name && attrTruthy t.description
        && schemaTruthy t.inputSchema) = true)
    (hmal : ∃ t ∈ ts, hasAllAttrs t = false) :
    (list_server_tools server_name (.ok (some ts))).fst
        = (ts.filter fun t => hasAllAttrs t).filterMap convertTool ∧
    (list_server_tools server_name (.ok (some ts))).fst.length
        = ts.length - (ts.filter fun t => !hasAllAttrs t).length ∧
    (list_server_tools server_name (.ok (some ts))).snd.length
        = (ts.filter fun t => !hasAllAttrs t).length := by
  have hiff : ∀ t ∈ ts, (convertTool t).isSome = hasAllAttrs t := by
    intro t htm
    by_cases hall : hasAllAttrs t = true
    · rw [hall]
      exact convertTool_isSome_of_truthy t (hpresent t htm hall)
    · have hfalse : hasAllAttrs t = false := by
        revert hall
        cases hasAllAttrs t <;> simp
      rw [hfalse, convertTool_eq_none_of_not_hasAllAttrs t hfalse]
      rfl
  have hne : ts ≠ [] := by
    rcases hmal with ⟨t, htm, _⟩
    intro hnil
    subst hnil
    exact absurd htm (List.not_mem_nil t)
  have hempty : ts.isEmpty = false := by
    cases ts
    · exact absurd rfl hne
    · rfl
  obtain ⟨hmapEq, hcount, hdiag⟩ := filterMap_convert_count ts hiff
  constructor
  · simpa [list_server_tools, hempty] using hmapEq
  constructor
  · have : (ts.filterMap convertTool).length
        = ts.length - (ts.filter fun t => !hasAllAttrs t).length := by
      omega
    simpa [list_server_tools, hempty] using this
  · simpa [list_server_tools, hempty] using hdiag

/-- C4 witness: a concrete list with two well-formed entries and one entry
missing its description. -/
theorem discovery_skips_malformed_witness :
    (∀ t ∈ [(⟨some "sum", some "adds two numbers",
          some (.dict [("type", .str "object")])⟩ : RawTool),
        ⟨some "bad", Option.none, some (.dict [("type", .str "object")])⟩,
        ⟨some "echo", some "echoes", some (.dict [("type", .str "object")])⟩],
      hasAllAttrs t = true →
      (attrTruthy t.name && attrTruthy t.description
        && schemaTruthy t.inputSchema) = true) ∧
    (∃ t ∈ [(⟨some "sum", some "adds two numbers",
          some (.dict [("type", .str "object")])⟩ : RawTool),
        ⟨some "bad", Option.none, some (.dict [("type", .str "object")])⟩,
        ⟨some "echo", some "echoes", some (.dict [("type", .str "object")])⟩],
      hasAllAttrs t = false) ∧
    (list_server_tools "srv"
        (.ok (some [(⟨some "sum", some "adds two numbers",
            some (.dict [("type", .str "object")])⟩ : RawTool),
          ⟨some "bad", Option.none, some (.dict [("type", .str "object")])⟩,
          ⟨some "echo", some "echoes",
            some (.dict [("type", .str "object")])⟩]))).fst.length = 3 - 1 :=
  ⟨by decide, by decide,
   (discovery_skips_malformed "srv" _ (by decide) (by decide)).2.1.trans
     (by decide)⟩

/-- C5 counterexample: a raw entry with a non-empty name, a present
description that is the empty string, and a truthy input schema is skipped
by `list_server_tools` — the discovery result is empty, so the entry is not
included as the claim states. -/
theorem empty_description_skipped_cex :
    (list_server_tools "srv"
      (.ok (some [⟨some "t", some "",
        some (.dict [("type", .str "object")])⟩]))).fst = [] := by
  decide

/-- C5 (amended): because the conversion guard tests Python truthiness
(`all([name, description, input_schema])`), an entry whose description is
present but empty is skipped exactly like a missing one: it is never
converted, and every `Tool` returned by discovery has a non-empty name and
a non-empty description. -/
theorem empty_description_skipped (server_name : String) (ts : List RawTool)
    (t : RawTool) (hdesc : t.description = some "") :
    convertTool t = Option.none ∧
    ∀ tool ∈ (list_server_tools server_name (.ok (some ts))).fst,
      tool.name ≠ "" ∧ tool.description ≠ "" := by
  constructor
  · rcases t with ⟨n, d, s⟩
    simp only at hdesc
    subst hdesc
    cases n with
    | none => simp [convertTool]
    | some n =>
        cases s with
        | none => simp [convertTool]
        | some s =>
            have h0 : String.isEmpty "" = true := by decide
            dsimp only [convertTool]
            rw [if_neg (show
              ¬((!n.isEmpty && !String.isEmpty "" && PyValue.truthy s) = true)
              by simp [h0])]
  · intro tool htool
    have hmem : ∃ a ∈ ts, convertTool a = some tool := by
      by_cases hem : ts.isEmpty = true
      · simp [list_server_tools, hem] at htool
      · have hem' : ts.isEmpty = false := by
          revert hem
          cases ts.isEmpty <;> simp
        simp only [list_server_tools, Option.getD_some, hem',
          Bool.false_eq_true, if_false] at htool
        exact List.mem_filterMap.mp htool
    obtain ⟨a, _, hconv⟩ := hmem
    rcases a with ⟨n, d, s⟩
    cases n with
    | none => simp [convertTool] at hconv
    | some n =>
        cases d with
        | none => simp [convertTool] at hconv
        | some d =>
            cases s with
            | none => simp [convertTool] at hconv
            | some s =>
                dsimp only [convertTool] at hconv
                by_cases hcnd : (!n.isEmpty && !d.isEmpty && s.truthy) = true
                · rw [if_pos hcnd] at hconv
                  have htool' := Option.some.inj hconv
                  obtain ⟨⟨hn, hd⟩, _⟩ :
                      (!n.isEmpty = true ∧ !d.isEmpty = true) ∧
                        s.truthy = true := by
                    simpa [Bool.and_eq_true] using hcnd
                  subst htool'
                  constructor
                  · intro hc
                    simp only at hc
                    subst hc
                    exact absurd hn (by decide)
                  · intro hc
                    simp only at hc
                    subst hc
                    exact absurd hd (by decide)
                · rw [if_neg hcnd] at hconv
                  cases hconv

/-- C5 (amended) witness: the theorem applied to the concrete
empty-description entry. -/
theorem empty_description_skipped_witness :
    convertTool ⟨some "t", some "",
        some (.dict [("type", .str "object")])⟩ = Option.none :=
  (empty_description_skipped "srv" [] _ rfl).1

/-- Reading a freshly allocated cell yields the allocated content. -/
theorem Heap.read_alloc_self (h : Heap) (v : List (String × String)) :
    (h.alloc v).fst.read (h.alloc v).snd = v := by
  simp [Heap.alloc, Heap.read, List.getD]

/-- Allocation does not disturb previously allocated cells. -/
theorem Heap.read_alloc_of_lt (h : Heap) (v : List (String × String))
    (r : Nat) (hr : r < h.cells.length) :
    (h.alloc v).fst.read r = h.read r := by
  simp [Heap.alloc, Heap.read, List.getD, List.getElem?_append, hr]

/-- Looking up the key just written yields the written reference. -/
theorem lookupRef_setRef_self (m : List (String × Nat)) (key : String)
    (r : Nat) : lookupRef (setRef m key r) key = some r := by
  induction m with
  | nil => simp [setRef, lookupRef]
  | cons p rest ih =>
      rcases p with ⟨k, v⟩
      by_cases hk : k = key
      · subst hk
        simp [setRef, lookupRef]
      · simp [setRef, lookupRef, hk, ih]

/-- Every binding after an update is either the updated binding or one of
the original bindings. -/
theorem mem_setRef (m : List (String × Nat)) (key : String) (r : Nat)
    (p : String × Nat) (hp : p ∈ setRef m key r) : p = (key, r) ∨ p ∈ m := by
  induction m with
  | nil =>
      simp [setRef] at hp
      exact Or.inl hp
  | cons q rest ih =>
      rcases q with ⟨k, v⟩
      by_cases hk : k = key
      · subst hk
        simp [setRef] at hp
        rcases hp with hp | hp
        · exact Or.inl (by simp [hp])
        · exact Or.inr (List.mem_cons_of_mem _ hp)
      · simp only [setRef, if_neg hk, List.mem_cons] at hp
        rcases hp with hp | hp
        · exact Or.inr (by simp [hp])
        · rcases ih hp with h | h
          · exact Or.inl h
          · exact Or.inr (List.mem_cons_of_mem _ h)

/-- C9: after `set_tools s L1`, the snapshot returned by `get_tools s` is a
fresh list object: its content still reads `L1` after a subsequent
`set_tools s L2` (which rebinds the store to the new reference whose content
is `L2`), the whole-mapping copy taken before the second set still maps `s`
to the `L1` reference, and no binding of the store — before or after the
second set — refers to the snapshot, so no cache operation can mutate it. -/
theorem cache_snapshot_isolation (h : Heap) (st : ThreadSafeToolStore)
    (name : String) (L1 L2 : List (String × String))
    (hwf : ∀ p ∈ st.tools, p.2 < h.cells.length) :
    ((((st.set_tools name (h.alloc L1).snd).get_tools (h.alloc L1).fst
          name).fst.alloc L2).fst.read
        ((st.set_tools name (h.alloc L1).snd).get_tools (h.alloc L1).fst
          name).snd = L1) ∧
    (lookupRef ((st.set_tools name (h.alloc L1).snd).set_tools name
          ((((st.set_tools name (h.alloc L1).snd).get_tools (h.alloc L1).fst
              name).fst).alloc L2).snd).tools name
        = some ((((st.set_tools name (h.alloc L1).snd).get_tools
            (h.alloc L1).fst name).fst).alloc L2).snd) ∧
    (((((st.set_tools name (h.alloc L1).snd).get_tools (h.alloc L1).fst
          name).fst).alloc L2).fst.read
        ((((st.set_tools name (h.alloc L1).snd).get_tools (h.alloc L1).fst
          name).fst).alloc L2).snd = L2) ∧
    (lookupRef (st.set_tools name (h.alloc L1).snd).get_all name
        = some (h.alloc L1).snd) ∧
    (∀ p ∈ (st.set_tools name (h.alloc L1).snd).tools,
      p.2 ≠ ((st.set_tools name (h.alloc L1).snd).get_tools (h.alloc L1).fst
        name).snd) ∧
    ∀ p ∈ ((st.set_tools name (h.alloc L1).snd).set_tools name
        ((((st.set_tools name (h.alloc L1).snd).get_tools (h.alloc L1).fst
            name).fst).alloc L2).snd).tools,
      p.2 ≠ ((st.set_tools name (h.alloc L1).snd).get_tools (h.alloc L1).fst
        name).snd := by
  have hlen1 : (h.alloc L1).fst.cells.length = h.cells.length + 1 := by
    simp [Heap.alloc]
  have hr1 : (h.alloc L1).snd = h.cells.length := rfl
  have hlook1 : lookupRef (st.set_tools name (h.alloc L1).snd).tools name
      = some (h.alloc L1).snd :=
    lookupRef_setRef_self st.tools name (h.alloc L1).snd
  have hcontent : ((st.set_tools name (h.alloc L1).snd).get_tools
      (h.alloc L1).fst name).fst
      = ((h.alloc L1).fst.alloc
          ((h.alloc L1).fst.read (h.alloc L1).snd)).fst := by
    simp [ThreadSafeToolStore.get_tools, hlook1]
  have hsnapref : ((st.set_tools name (h.alloc L1).snd).get_tools
      (h.alloc L1).fst name).snd = h.cells.length + 1 := by
    simp [ThreadSafeToolStore.get_tools, hlook1, Heap.alloc, hlen1]
  have hreadL1 : (h.alloc L1).fst.read (h.alloc L1).snd = L1 :=
    Heap.read_alloc_self h L1
  refine ⟨?_, ?_, ?_, ?_, ?_, ?_⟩
  · rw [hcontent, hreadL1, hsnapref]
    have hlt : h.cells.length + 1
        < ((h.alloc L1).fst.alloc L1).fst.cells.length := by
      simp [Heap.alloc, hlen1]
    rw [Heap.read_alloc_of_lt ((h.alloc L1).fst.alloc L1).fst L2
      (h.cells.length + 1) hlt]
    have hidx : h.cells.length + 1 = ((h.alloc L1).fst.alloc L1).snd := by
      simp [Heap.alloc, hlen1]
    rw [hidx, Heap.read_alloc_self]
  · exact lookupRef_setRef_self _ name _
  · exact Heap.read_alloc_self _ L2
  · exact hlook1
  · intro p hp
    rw [hsnapref]
    rcases mem_setRef st.tools name (h.alloc L1).snd p hp with hpe | hpm
    · rw [hpe, hr1]
      omega
    · have := hwf p hpm
      omega
  · intro p hp
    rw [hsnapref]
    rcases mem_setRef _ name _ p hp with hpe | hpm
    · rw [hpe]
      have : ((((st.set_tools name (h.alloc L1).snd).get_tools
          (h.alloc L1).fst name).fst).alloc L2).snd
          = h.cells.length + 2 := by
        rw [hcontent, hreadL1]
        simp [Heap.alloc, hlen1]
      rw [this]
      omega
    · rcases mem_setRef st.tools name (h.alloc L1).snd p hpm with hpe' | hpm'
      · rw [hpe', hr1]
        omega
      · have := hwf p hpm'
        omega

/-- C9 witness: the theorem at a concrete empty cache, with
`L1 = [a, b]` and `L2 = [c]`. -/
theorem cache_snapshot_isolation_witness :
    (∀ p ∈ (⟨[]⟩ : ThreadSafeToolStore).tools,
      p.2 < (⟨[]⟩ : Heap).cells.length) ∧
    ((((⟨[]⟩ : ThreadSafeToolStore).set_tools "s1"
          ((⟨[]⟩ : Heap).alloc [("a", "sa"), ("b", "sb")]).snd).get_tools
          ((⟨[]⟩ : Heap).alloc [("a", "sa"), ("b", "sb")]).fst
          "s1").fst.alloc [("c", "sc")]).fst.read
        (((⟨[]⟩ : ThreadSafeToolStore).set_tools "s1"
          ((⟨[]⟩ : Heap).alloc [("a", "sa"), ("b", "sb")]).snd).get_tools
          ((⟨[]⟩ : Heap).alloc [("a", "sa"), ("b", "sb")]).fst
          "s1").snd = [("a", "sa"), ("b", "sb")] :=
  ⟨by simp,
   (cache_snapshot_isolation ⟨[]⟩ ⟨[]⟩ "s1" [("a", "sa"), ("b", "sb")]
     [("c", "sc")] (by simp)).1⟩

end McpHarness
